import Mathlib

/-!
Verification of the AuthGate browser SDK (`@authgate/browser`, `src/index.ts`).

The library is shallowly embedded as follows.

* JavaScript strings are modelled as `List Char`.
* `document.cookie` is an explicit `cookie : List Char` argument.
* The network is an oracle `net : Nat → FetchResult` giving the outcome of the
  k-th `fetch` call made during one operation; each operation additionally
  returns the ordered list of requests it issued, so call counts and call
  order are part of the model.
* A JavaScript exception that escapes a function is an `Except.error ()`
  result; `fetch` rejections are `FetchResult.throws`.
* `decodeURIComponent` / `encodeURIComponent` are modelled at the character
  level, including percent-escape parsing, UTF-8 byte assembly, and the
  `URIError` thrown on malformed input (an `Except.error ()`).
-/

namespace AuthGate

/-- Hexadecimal value of a character, as accepted by percent-escapes
(`0`-`9`, `A`-`F`, `a`-`f`); `none` for any other character. -/
def hexVal (c : Char) : Option Nat :=
  if 48 ≤ c.toNat ∧ c.toNat ≤ 57 then some (c.toNat - 48)
  else if 65 ≤ c.toNat ∧ c.toNat ≤ 70 then some (c.toNat - 55)
  else if 97 ≤ c.toNat ∧ c.toNat ≤ 102 then some (c.toNat - 87)
  else none

/-- Uppercase hexadecimal digit for `d < 16`, as produced by
`encodeURIComponent`. -/
def hexDigitChar (d : Nat) : Char :=
  Char.ofNat (if d < 10 then 48 + d else 55 + d)

/-- Characters left unescaped by `encodeURIComponent`:
`A`-`Z`, `a`-`z`, `0`-`9`, `-`, `_`, `.`, `!`, `~`, `*`, the apostrophe,
`(` and `)` (ECMA-262 `uriUnescaped`). -/
def isUriSafe (c : Char) : Bool :=
  decide ((65 ≤ c.toNat ∧ c.toNat ≤ 90) ∨ (97 ≤ c.toNat ∧ c.toNat ≤ 122) ∨
    (48 ≤ c.toNat ∧ c.toNat ≤ 57) ∨ c.toNat = 45 ∨ c.toNat = 95 ∨ c.toNat = 46 ∨
    c.toNat = 33 ∨ c.toNat = 126 ∨ c.toNat = 42 ∨ c.toNat = 39 ∨ c.toNat = 40 ∨
    c.toNat = 41)

/-- UTF-8 bytes of the code point `n` (canonical encoding). -/
def utf8Bytes (n : Nat) : List Nat :=
  if n < 128 then [n]
  else if n < 2048 then [192 + n / 64, 128 + n % 64]
  else if n < 65536 then [224 + n / 4096, 128 + n / 64 % 64, 128 + n % 64]
  else [240 + n / 262144, 128 + n / 4096 % 64, 128 + n / 64 % 64, 128 + n % 64]

/-- Percent-escape of one byte, `%HH` with uppercase hex digits. -/
def encodeByte (b : Nat) : List Char :=
  ['%', hexDigitChar (b / 16), hexDigitChar (b % 16)]

/-- Encoding of one character by `encodeURIComponent`: safe characters are
kept, every other character becomes the percent-escapes of its UTF-8 bytes. -/
def encChar (c : Char) : List Char :=
  if isUriSafe c then [c] else (utf8Bytes c.toNat).flatMap encodeByte

/-- Model of the JavaScript builtin `encodeURIComponent`. -/
def encodeURIComponent (s : List Char) : List Char :=
  s.flatMap encChar

/-- Intermediate token of `decodeURIComponent`: either a literal character of
the input or one byte produced by a `%HH` escape. -/
inductive UTok where
  | lit (c : Char)
  | byte (b : Nat)
deriving DecidableEq

/-- First phase of `decodeURIComponent`: parse percent-escapes into bytes,
failing (`URIError`) when a `%` is not followed by two hex digits. -/
def tokenize : List Char → Except Unit (List UTok)
  | [] => Except.ok []
  | c :: rest =>
    if c = '%' then
      match rest with
      | h1 :: h2 :: rest2 =>
        match hexVal h1, hexVal h2 with
        | some a, some b => Except.map (fun ts => UTok.byte (16 * a + b) :: ts) (tokenize rest2)
        | _, _ => Except.error ()
      | _ => Except.error ()
    else Except.map (fun ts => UTok.lit c :: ts) (tokenize rest)

/-- Second phase of `decodeURIComponent`, one token per step. `pending` is
the number of UTF-8 continuation bytes still expected, `lo` the smallest
code point the current sequence may legally produce (shortest-form check),
and `acc` the partially assembled code point. A sequence is rejected unless
it is a valid, shortest-form encoding of a Unicode scalar value. -/
def assembleAux : Nat → Nat → Nat → List UTok → Except Unit (List Char)
  | 0, _, _, [] => Except.ok []
  | 0, _, _, UTok.lit c :: rest => Except.map (fun l => c :: l) (assembleAux 0 0 0 rest)
  | 0, _, _, UTok.byte b :: rest =>
    if b < 128 then Except.map (fun l => Char.ofNat b :: l) (assembleAux 0 0 0 rest)
    else if b < 194 then Except.error ()
    else if b < 224 then assembleAux 1 128 (b - 192) rest
    else if b < 240 then assembleAux 2 2048 (b - 224) rest
    else if b < 245 then assembleAux 3 65536 (b - 240) rest
    else Except.error ()
  | Nat.succ _, _, _, [] => Except.error ()
  | Nat.succ _, _, _, UTok.lit _ :: _ => Except.error ()
  | Nat.succ p, lo, acc, UTok.byte b :: rest =>
    if 128 ≤ b ∧ b < 192 then
      match p with
      | 0 =>
        if lo ≤ acc * 64 + (b - 128) ∧
            (acc * 64 + (b - 128) < 55296 ∨ 57343 < acc * 64 + (b - 128)) ∧
            acc * 64 + (b - 128) < 1114112 then
          Except.map (fun l => Char.ofNat (acc * 64 + (b - 128)) :: l) (assembleAux 0 0 0 rest)
        else Except.error ()
      | Nat.succ p2 => assembleAux (Nat.succ p2) lo (acc * 64 + (b - 128)) rest
    else Except.error ()

/-- Group escape bytes into UTF-8 sequences, starting from the neutral
state. -/
def assemble (ts : List UTok) : Except Unit (List Char) :=
  assembleAux 0 0 0 ts

/-- Model of the JavaScript builtin `decodeURIComponent`; `Except.error ()`
is the `URIError` it throws on malformed input. -/
def decodeURIComponent (s : List Char) : Except Unit (List Char) :=
  Except.bind (tokenize s) assemble

/-- Helper for the split functions: prepend a character to the first segment
of a non-empty segment list. -/
def consHead (c : Char) : List (List Char) → List (List Char)
  | [] => [[c]]
  | s :: ss => (c :: s) :: ss

/-- Model of `String.prototype.split("; ")` as used on `document.cookie`:
split on every occurrence of the two-character separator. -/
def splitSemiSpace : List Char → List (List Char)
  | [] => [[]]
  | [c] => [[c]]
  | c :: c2 :: rest =>
    if c = ';' ∧ c2 = ' ' then [] :: splitSemiSpace rest
    else consHead c (splitSemiSpace (c2 :: rest))

/-- Model of `String.prototype.split("=")`. -/
def splitEq : List Char → List (List Char)
  | [] => [[]]
  | c :: rest => if c = '=' then [] :: splitEq rest else consHead c (splitEq rest)

/-- Name of the CSRF cookie. -/
def csrfCookieName : List Char := "authgate_csrf".toList

/-- Model of `getCookie` from `src/index.ts`: split `document.cookie` on
`"; "`, find the first entry starting with `name + "="`, and return the
`decodeURIComponent` of field 1 of the entry split on `"="` (the source's
`match.split("=")[1]`; the entry always contains a `=`, so index 1 exists).
`Except.error` is an escaping `URIError` from `decodeURIComponent`. -/
def getCookie (name cookie : List Char) : Except Unit (Option (List Char)) :=
  match (splitSemiSpace cookie).find? (fun c => (name ++ ['=']).isPrefixOf c) with
  | none => Except.ok none
  | some m => Except.map some (decodeURIComponent ((splitEq m).getD 1 []))

/-- Model of `getCSRFToken` from `src/index.ts`. -/
def getCSRFToken (cookie : List Char) : Except Unit (Option (List Char)) :=
  getCookie csrfCookieName cookie

/-- Minimal JSON value model for response bodies; `null` doubles as the
JavaScript `null` value that every failure path of `getCurrentUser`
returns. -/
inductive JsValue where
  | null
  | bool (b : Bool)
  | num (n : Int)
  | str (s : List Char)
  | arr (elems : List JsValue)
  | obj (fields : List (List Char × JsValue))

/-- Model of a `Response`: its HTTP status and the outcome of `res.json()`
(`Except.error ()` when the body is not parseable JSON). -/
structure Response where
  status : Nat
  body : Except Unit JsValue

/-- Model of `Response.ok`: status in the range 200-299. -/
def Response.ok (r : Response) : Bool :=
  decide (200 ≤ r.status ∧ r.status ≤ 299)

/-- Outcome of one `fetch` call: the promise either rejects (`throws`) or
resolves to a response. -/
inductive FetchResult where
  | throws
  | resp (res : Response)

/-- Model of a `RequestInit` object: the fields this library reads or
writes. -/
structure RequestInit where
  method : Option (List Char)
  headers : List (List Char × List Char)
  credentials : Option (List Char)

/-- Constant string `"include"`. -/
def includeStr : List Char := "include".toList

/-- Constant string `"POST"`. -/
def postStr : List Char := "POST".toList

/-- Constant string `"GET"`. -/
def getStr : List Char := "GET".toList

/-- Constant string `"app"`, the default audience. -/
def appStr : List Char := "app".toList

/-- Constant string `"X-CSRF-Token"`. -/
def csrfHeaderName : List Char := "X-CSRF-Token".toList

/-- Constant string `"/auth/logout"`. -/
def logoutUrl : List Char := "/auth/logout".toList

/-- Constant string `"/auth/refresh?audience="`, the prefix of the refresh
URL template. -/
def refreshUrlPrefix : List Char := "/auth/refresh?audience=".toList

/-- Constant string `"/auth/user"`. -/
def userUrl : List Char := "/auth/user".toList

/-- Model of `withCredentials` from `src/index.ts`: spread the caller's
`init` and force `credentials: "include"`, leaving every other field as the
caller set it. -/
def withCredentials (init : RequestInit) : RequestInit :=
  ⟨init.method, init.headers, some includeStr⟩

/-- One issued network request: the `fetch` URL and its options. -/
abbrev Call := List Char × RequestInit

/-- Request options of the `POST` calls built by `logout` and
`refreshSession`: CSRF header and included credentials. -/
def csrfPostInit (csrf : List Char) : RequestInit :=
  ⟨some postStr, [(csrfHeaderName, csrf)], some includeStr⟩

/-- The request issued by `refreshSession`:
`POST /auth/refresh?audience=<encodeURIComponent audience>`. -/
def refreshCall (audience csrf : List Char) : Call :=
  (refreshUrlPrefix ++ encodeURIComponent audience, csrfPostInit csrf)

/-- The result of `logout` from `src/index.ts`. -/
inductive LogoutResult where
  | success
  | missing_csrf
  | request_failed
  | unauthorized
deriving DecidableEq

/-- Options object of `logout`. -/
structure LogoutOpts where
  redirectTo : Option (List Char)

/-- Full outcome of one `logout` call: the returned value (or the escaped
exception), the issued requests, and the navigation target assigned to
`window.location.href` (if any). -/
structure LogoutOut where
  result : Except Unit LogoutResult
  calls : List Call
  nav : Option (List Char)

/-- Model of `logout` from `src/index.ts`. The cookie read happens outside
the `try`, so a `URIError` from `decodeURIComponent` escapes. `if (!csrf)`
treats both a missing cookie and an empty-string value as falsy. Navigation
happens only on success and only for a truthy (non-empty) `redirectTo`. -/
def logout (cookie : List Char) (net : Nat → FetchResult) (opts : Option LogoutOpts) :
    LogoutOut :=
  match getCSRFToken cookie with
  | Except.error e => ⟨Except.error e, [], none⟩
  | Except.ok none => ⟨Except.ok LogoutResult.missing_csrf, [], none⟩
  | Except.ok (some csrf) =>
    if csrf = [] then ⟨Except.ok LogoutResult.missing_csrf, [], none⟩
    else
      match net 0 with
      | FetchResult.throws => ⟨Except.ok LogoutResult.request_failed, [(logoutUrl, csrfPostInit csrf)], none⟩
      | FetchResult.resp res =>
        if res.ok = false then
          ⟨Except.ok
              (if res.status = 401 ∨ res.status = 403 then LogoutResult.unauthorized
                else LogoutResult.request_failed),
            [(logoutUrl, csrfPostInit csrf)], none⟩
        else
          match opts with
          | none => ⟨Except.ok LogoutResult.success, [(logoutUrl, csrfPostInit csrf)], none⟩
          | some o =>
            match o.redirectTo with
            | none => ⟨Except.ok LogoutResult.success, [(logoutUrl, csrfPostInit csrf)], none⟩
            | some u =>
              if u = [] then ⟨Except.ok LogoutResult.success, [(logoutUrl, csrfPostInit csrf)], none⟩
              else ⟨Except.ok LogoutResult.success, [(logoutUrl, csrfPostInit csrf)], some u⟩

/-- Model of `refreshSession` from `src/index.ts`. `audience = none` models
a call without the argument, so the default parameter `"app"` applies. `k`
is the index of the next network call in the ambient oracle (0 when called
standalone, 1 when called from `authFetch`). The `fetch` is inside `try`,
so a rejection yields `false`; the cookie read is outside it, so a
`URIError` escapes. -/
def refreshSession (cookie : List Char) (net : Nat → FetchResult) (k : Nat)
    (audience : Option (List Char)) : Except Unit Bool × List Call :=
  let aud := audience.getD appStr
  match getCSRFToken cookie with
  | Except.error e => (Except.error e, [])
  | Except.ok none => (Except.ok false, [])
  | Except.ok (some csrf) =>
    if csrf = [] then (Except.ok false, [])
    else
      match net k with
      | FetchResult.throws => (Except.ok false, [refreshCall aud csrf])
      | FetchResult.resp res => (Except.ok res.ok, [refreshCall aud csrf])

/-- Options object of `authFetch`. -/
structure AuthOpts where
  audience : Option (List Char)

/-- The audience `authFetch` resolves from its options:
`opts?.audience ?? "app"`. -/
def requestedAudience (opts : Option AuthOpts) : List Char :=
  (opts.bind AuthOpts.audience).getD appStr

/-- Model of `authFetch` from `src/index.ts`: issue the request with
credentials forced; on a non-401 status return the response; on 401 run
`refreshSession` with the requested audience and, only if it returns
`true`, re-issue the original request once and return that response. The
two `fetch` calls are not inside any `try`, so their rejections escape, as
does a `URIError` escaping `refreshSession`. -/
def authFetch (cookie : List Char) (net : Nat → FetchResult) (input : List Char)
    (init : RequestInit) (opts : Option AuthOpts) : Except Unit Response × List Call :=
  let audience := requestedAudience opts
  match net 0 with
  | FetchResult.throws => (Except.error (), [(input, withCredentials init)])
  | FetchResult.resp res =>
    if res.status ≠ 401 then (Except.ok res, [(input, withCredentials init)])
    else
      match refreshSession cookie net 1 (some audience) with
      | (Except.error e, rcalls) => (Except.error e, (input, withCredentials init) :: rcalls)
      | (Except.ok refreshed, rcalls) =>
        if refreshed = false then (Except.ok res, (input, withCredentials init) :: rcalls)
        else
          match net (1 + rcalls.length) with
          | FetchResult.throws =>
            (Except.error (), (input, withCredentials init) :: rcalls ++ [(input, withCredentials init)])
          | FetchResult.resp res2 =>
            (Except.ok res2, (input, withCredentials init) :: rcalls ++ [(input, withCredentials init)])

/-- Options object of `getCurrentUser`. -/
structure UserOpts where
  audience : Option (List Char)

/-- Model of `getCurrentUser` from `src/index.ts`: call
`authFetch("/auth/user", {method:"GET"}, {audience: opts?.audience ?? "app"})`
inside `try`; return `null` if it throws, if the status is not ok, or if
the body fails to parse; otherwise return the parsed JSON value as-is. -/
def getCurrentUser (cookie : List Char) (net : Nat → FetchResult)
    (opts : Option UserOpts) : JsValue × List Call :=
  let aud := (opts.bind UserOpts.audience).getD appStr
  match authFetch cookie net userUrl ⟨some getStr, [], none⟩ (some ⟨some aud⟩) with
  | (Except.error _, calls) => (JsValue.null, calls)
  | (Except.ok res, calls) =>
    if res.ok = false then (JsValue.null, calls)
    else
      match res.body with
      | Except.error _ => (JsValue.null, calls)
      | Except.ok v => (v, calls)

/-- Follows the spec's words (§4.1, §8), for comparison with the code's
`getCookie`: the value of the first `"; "`-separated entry whose key is
exactly `authgate_csrf`, i.e. everything after the first `=` of that entry;
`none` when no entry matches. -/
def specCookieValue (cookie : List Char) : Option (List Char) :=
  ((splitSemiSpace cookie).find? (fun c => (csrfCookieName ++ ['=']).isPrefixOf c)).map
    (fun m => m.drop (csrfCookieName ++ ['=']).length)

/-- Portion of a cookie value before its first `=`; the code's
`match.split("=")[1]` reads exactly this much of the value. -/
def valueBeforeEq (v : List Char) : List Char :=
  v.takeWhile (fun c => c != '=')

/-- Tokens produced by `tokenize` for one encoded character (proof-support
definition for the round-trip argument). -/
def tokensOf (c : Char) : List UTok :=
  if isUriSafe c then [UTok.lit c] else (utf8Bytes c.toNat).map UTok.byte

/-- Empty `RequestInit` (`init = {}`). -/
def emptyInit : RequestInit := ⟨none, [], none⟩

/-- Concrete cookie holding CSRF token `tok`. -/
def okCookie : List Char := "authgate_csrf=tok".toList

/-- Concrete CSRF token `tok`. -/
def tokStr : List Char := "tok".toList

/-- Concrete cookie whose CSRF value `%` is malformed percent-encoding:
`decodeURIComponent` throws `URIError` on it. -/
def badCookie : List Char := "authgate_csrf=%".toList

/-- Concrete cookie whose CSRF value `a=b` contains an equals sign. -/
def eqCookie : List Char := "authgate_csrf=a=b".toList

/-- Concrete value `a=b`. -/
def aEqBStr : List Char := "a=b".toList

/-- Concrete value `a`. -/
def aStr : List Char := "a".toList

/-- Concrete audience `admin`. -/
def adminStr : List Char := "admin".toList

/-- Concrete malformed cookie string with stray separators and a missing
value, which the cookie read handles without throwing. -/
def junkCookie : List Char := "garbage;; =x==; plain".toList

/-- Concrete request URL. -/
def apiUrl : List Char := "/api/data".toList

/-- Concrete redirect target. -/
def afterUrl : List Char := "/after".toList

/-- Concrete 401 response. -/
def resp401 : Response := ⟨401, Except.error ()⟩

/-- Concrete 200 response with an unparseable body. -/
def resp200 : Response := ⟨200, Except.error ()⟩

/-- Concrete 500 response. -/
def resp500 : Response := ⟨500, Except.error ()⟩

/-- Concrete 200 response whose body is the JSON literal `null`. -/
def respNull : Response := ⟨200, Except.ok JsValue.null⟩

/-- Concrete 200 response whose body is a JSON string (not a user object). -/
def respStr : Response := ⟨200, Except.ok (JsValue.str aStr)⟩

/-- Network oracle answering 401 to every call. -/
def net401 : Nat → FetchResult := fun _ => FetchResult.resp resp401

/-- Network oracle answering 200 to every call. -/
def net200 : Nat → FetchResult := fun _ => FetchResult.resp resp200

/-- Network oracle rejecting every call. -/
def netThrows : Nat → FetchResult := fun _ => FetchResult.throws

/-- Network oracle: initial call 401, refresh ok, retry 200. -/
def netRetryOk : Nat → FetchResult :=
  fun k => if k = 0 then FetchResult.resp resp401 else FetchResult.resp resp200

/-- Network oracle: initial call 401, refresh ok, retry rejects. -/
def netRetryThrows : Nat → FetchResult :=
  fun k =>
    if k = 0 then FetchResult.resp resp401
    else if k = 1 then FetchResult.resp resp200
    else FetchResult.throws

/-- Network oracle: every call yields 200 with JSON body `null`. -/
def netNullBody : Nat → FetchResult := fun _ => FetchResult.resp respNull

/-- Network oracle: every call yields 200 with a JSON string body. -/
def netStrBody : Nat → FetchResult := fun _ => FetchResult.resp respStr

/-- Navigation target of one `logout` call: the supplied `redirectTo` when
it is present and truthy (non-empty), otherwise no navigation. -/
def navTarget (opts : Option LogoutOpts) : Option (List Char) :=
  match opts.bind LogoutOpts.redirectTo with
  | none => none
  | some u => if u = [] then none else some u

/-- Reading back an uppercase-or-lowercase hex digit recovers its value. -/
theorem hexVal_hexDigitChar (d : Nat) (hd : d < 16) : hexVal (hexDigitChar d) = some d := by
  interval_cases d <;> decide

/-- Code points of characters are below 0x110000. -/
theorem char_toNat_lt (c : Char) : c.toNat < 1114112 := by
  rcases c.valid with h | h
  · exact Nat.lt_trans h (by decide)
  · exact h.2

/-- Code points of characters avoid the surrogate range. -/
theorem char_not_surrogate (c : Char) : c.toNat < 55296 ∨ 57343 < c.toNat := by
  rcases c.valid with h | h
  · exact Or.inl h
  · exact Or.inr h.1

/-- All UTF-8 bytes of a code point fit in one byte. -/
theorem utf8Bytes_lt (n : Nat) (hn : n < 1114112) : ∀ b ∈ utf8Bytes n, b < 256 := by
  unfold utf8Bytes
  split
  · intro b hb
    simp only [List.mem_singleton] at hb
    omega
  split
  · intro b hb
    simp only [List.mem_cons, List.not_mem_nil, or_false] at hb
    have h64 : n % 64 < 64 := Nat.mod_lt _ (by omega)
    have hd : n / 64 < 32 := by omega
    rcases hb with rfl | rfl <;> omega
  split
  · intro b hb
    simp only [List.mem_cons, List.not_mem_nil, or_false] at hb
    have h64 : n % 64 < 64 := Nat.mod_lt _ (by omega)
    have h64b : n / 64 % 64 < 64 := Nat.mod_lt _ (by omega)
    have hd : n / 4096 < 16 := by omega
    rcases hb with rfl | rfl | rfl <;> omega
  · intro b hb
    simp only [List.mem_cons, List.not_mem_nil, or_false] at hb
    have h64 : n % 64 < 64 := Nat.mod_lt _ (by omega)
    have h64b : n / 64 % 64 < 64 := Nat.mod_lt _ (by omega)
    have h64c : n / 4096 % 64 < 64 := Nat.mod_lt _ (by omega)
    have hd : n / 262144 < 5 := by omega
    rcases hb with rfl | rfl | rfl | rfl <;> omega

/-- Tokenizing a literal non-`%` character emits one `lit` token. -/
theorem tokenize_cons_of_ne (c : Char) (hc : ¬c = '%') (l : List Char) :
    tokenize (c :: l) = Except.map (fun ts => UTok.lit c :: ts) (tokenize l) := by
  conv_lhs => rw [tokenize.eq_def]
  simp [hc]

/-- Tokenizing a `%HH` escape emits one `byte` token. -/
theorem tokenize_encodeByte (b : Nat) (hb : b < 256) (l : List Char) :
    tokenize (encodeByte b ++ l) = Except.map (fun ts => UTok.byte b :: ts) (tokenize l) := by
  have h1 : hexVal (hexDigitChar (b / 16)) = some (b / 16) :=
    hexVal_hexDigitChar _ (by omega)
  have h2 : hexVal (hexDigitChar (b % 16)) = some (b % 16) :=
    hexVal_hexDigitChar _ (Nat.mod_lt _ (by omega))
  have hb' : 16 * (b / 16) + b % 16 = b := by omega
  show tokenize ('%' :: hexDigitChar (b / 16) :: hexDigitChar (b % 16) :: l) = _
  conv_lhs => rw [tokenize.eq_def]
  simp [h1, h2, hb']

/-- Tokenizing a run of escapes emits the corresponding byte tokens. -/
theorem tokenize_escapes (bs : List Nat) (hb : ∀ b ∈ bs, b < 256) (l : List Char) :
    tokenize (bs.flatMap encodeByte ++ l) =
      Except.map (fun ts => bs.map UTok.byte ++ ts) (tokenize l) := by
  induction bs with
  | nil =>
    simp only [List.flatMap_nil, List.nil_append, List.map_nil]
    cases tokenize l <;> rfl
  | cons b bs ih =>
    have hb1 : b < 256 := hb b (by simp)
    have hb2 : ∀ x ∈ bs, x < 256 := fun x hx => hb x (by simp [hx])
    rw [List.flatMap_cons, List.append_assoc, tokenize_encodeByte b hb1, ih hb2]
    cases tokenize l <;> simp [Except.map]

/-- Safe characters are not `%`. -/
theorem isUriSafe_ne_percent (c : Char) (hs : isUriSafe c = true) : ¬c = '%' := by
  intro h
  subst h
  exact absurd hs (by decide)

/-- Tokenizing the encoding of one character emits its token run. -/
theorem tokenize_encChar (c : Char) (l : List Char) :
    tokenize (encChar c ++ l) = Except.map (fun ts => tokensOf c ++ ts) (tokenize l) := by
  by_cases hs : isUriSafe c
  · rw [show encChar c = [c] by simp [encChar, hs],
      show tokensOf c = [UTok.lit c] by simp [tokensOf, hs]]
    rw [List.singleton_append, tokenize_cons_of_ne c (isUriSafe_ne_percent c hs)]
    cases tokenize l <;> simp [Except.map]
  · rw [show encChar c = (utf8Bytes c.toNat).flatMap encodeByte by simp [encChar, hs],
      show tokensOf c = (utf8Bytes c.toNat).map UTok.byte by simp [tokensOf, hs]]
    exact tokenize_escapes _ (utf8Bytes_lt _ (char_toNat_lt c)) l

/-- Tokenizing an `encodeURIComponent` output yields exactly the token runs
of the source characters. -/
theorem tokenize_encode (s : List Char) :
    tokenize (encodeURIComponent s) = Except.ok (s.flatMap tokensOf) := by
  induction s with
  | nil => rfl
  | cons c s ih =>
    rw [show encodeURIComponent (c :: s) = encChar c ++ encodeURIComponent s by
        simp [encodeURIComponent]]
    rw [tokenize_encChar, ih, List.flatMap_cons]
    rfl

/-- Assembling a literal token prepends its character. -/
theorem assembleAux_lit (c : Char) (ts : List UTok) :
    assembleAux 0 0 0 (UTok.lit c :: ts) =
      Except.map (fun l => c :: l) (assembleAux 0 0 0 ts) := rfl

/-- Assembling a single ASCII byte prepends its character. -/
theorem assembleAux_one (b : Nat) (h : b < 128) (ts : List UTok) :
    assembleAux 0 0 0 (UTok.byte b :: ts) =
      Except.map (fun l => Char.ofNat b :: l) (assembleAux 0 0 0 ts) := by
  simp only [assembleAux, if_pos h]

/-- Assembling the canonical two-byte sequence of a code point in
[0x80, 0x800) prepends its character. -/
theorem assembleAux_two (n : Nat) (h1 : 128 ≤ n) (h2 : n < 2048) (ts : List UTok) :
    assembleAux 0 0 0 (UTok.byte (192 + n / 64) :: UTok.byte (128 + n % 64) :: ts) =
      Except.map (fun l => Char.ofNat n :: l) (assembleAux 0 0 0 ts) := by
  have c1 : ¬192 + n / 64 < 128 := by omega
  have c2 : ¬192 + n / 64 < 194 := by omega
  have c3 : 192 + n / 64 < 224 := by omega
  have c4 : 128 ≤ 128 + n % 64 ∧ 128 + n % 64 < 192 := by omega
  have e : (192 + n / 64 - 192) * 64 + (128 + n % 64 - 128) = n := by omega
  have c5 : 128 ≤ n ∧ (n < 55296 ∨ 57343 < n) ∧ n < 1114112 := by omega
  rw [show assembleAux 0 0 0 (UTok.byte (192 + n / 64) :: UTok.byte (128 + n % 64) :: ts) =
      assembleAux 1 128 (192 + n / 64 - 192) (UTok.byte (128 + n % 64) :: ts) by
    simp only [assembleAux, if_neg c1, if_neg c2, if_pos c3]]
  rw [show (1 : Nat) = Nat.succ 0 from rfl]
  simp only [assembleAux, if_pos c4, e, if_pos c5]

/-- Assembling the canonical three-byte sequence of a non-surrogate code
point in [0x800, 0x10000) prepends its character. -/
theorem assembleAux_three (n : Nat) (h1 : 2048 ≤ n) (h2 : n < 65536)
    (hsur : n < 55296 ∨ 57343 < n) (ts : List UTok) :
    assembleAux 0 0 0 (UTok.byte (224 + n / 4096) :: UTok.byte (128 + n / 64 % 64) ::
        UTok.byte (128 + n % 64) :: ts) =
      Except.map (fun l => Char.ofNat n :: l) (assembleAux 0 0 0 ts) := by
  have c1 : ¬224 + n / 4096 < 128 := by omega
  have c2 : ¬224 + n / 4096 < 194 := by omega
  have c3 : ¬224 + n / 4096 < 224 := by omega
  have c4 : 224 + n / 4096 < 240 := by omega
  have c5 : 128 ≤ 128 + n / 64 % 64 ∧ 128 + n / 64 % 64 < 192 := by
    have := Nat.mod_lt (n / 64) (show 0 < 64 by decide)
    omega
  have c6 : 128 ≤ 128 + n % 64 ∧ 128 + n % 64 < 192 := by
    have := Nat.mod_lt n (show 0 < 64 by decide)
    omega
  have e : ((224 + n / 4096 - 224) * 64 + (128 + n / 64 % 64 - 128)) * 64 + (128 + n % 64 - 128)
      = n := by omega
  have c7 : 2048 ≤ n ∧ (n < 55296 ∨ 57343 < n) ∧ n < 1114112 := ⟨h1, hsur, by omega⟩
  rw [show assembleAux 0 0 0 (UTok.byte (224 + n / 4096) :: UTok.byte (128 + n / 64 % 64) ::
        UTok.byte (128 + n % 64) :: ts) =
      assembleAux 2 2048 (224 + n / 4096 - 224)
        (UTok.byte (128 + n / 64 % 64) :: UTok.byte (128 + n % 64) :: ts) by
    simp only [assembleAux, if_neg c1, if_neg c2, if_neg c3, if_pos c4]]
  rw [show (2 : Nat) = Nat.succ (Nat.succ 0) from rfl]
  rw [show assembleAux (Nat.succ (Nat.succ 0)) 2048 (224 + n / 4096 - 224)
        (UTok.byte (128 + n / 64 % 64) :: UTok.byte (128 + n % 64) :: ts) =
      assembleAux (Nat.succ 0) 2048 ((224 + n / 4096 - 224) * 64 + (128 + n / 64 % 64 - 128))
        (UTok.byte (128 + n % 64) :: ts) by
    simp only [assembleAux, if_pos c5]]
  simp only [assembleAux, if_pos c6, e, if_pos c7]

/-- Assembling the canonical four-byte sequence of a code point in
[0x10000, 0x110000) prepends its character. -/
theorem assembleAux_four (n : Nat) (h1 : 65536 ≤ n) (h2 : n < 1114112) (ts : List UTok) :
    assembleAux 0 0 0 (UTok.byte (240 + n / 262144) :: UTok.byte (128 + n / 4096 % 64) ::
        UTok.byte (128 + n / 64 % 64) :: UTok.byte (128 + n % 64) :: ts) =
      Except.map (fun l => Char.ofNat n :: l) (assembleAux 0 0 0 ts) := by
  have c1 : ¬240 + n / 262144 < 128 := by omega
  have c2 : ¬240 + n / 262144 < 194 := by omega
  have c3 : ¬240 + n / 262144 < 224 := by omega
  have c4 : ¬240 + n / 262144 < 240 := by omega
  have c5 : 240 + n / 262144 < 245 := by omega
  have c6 : 128 ≤ 128 + n / 4096 % 64 ∧ 128 + n / 4096 % 64 < 192 := by
    have := Nat.mod_lt (n / 4096) (show 0 < 64 by decide)
    omega
  have c7 : 128 ≤ 128 + n / 64 % 64 ∧ 128 + n / 64 % 64 < 192 := by
    have := Nat.mod_lt (n / 64) (show 0 < 64 by decide)
    omega
  have c8 : 128 ≤ 128 + n % 64 ∧ 128 + n % 64 < 192 := by
    have := Nat.mod_lt n (show 0 < 64 by decide)
    omega
  have e : (((240 + n / 262144 - 240) * 64 + (128 + n / 4096 % 64 - 128)) * 64 +
      (128 + n / 64 % 64 - 128)) * 64 + (128 + n % 64 - 128) = n := by omega
  have c9 : 65536 ≤ n ∧ (n < 55296 ∨ 57343 < n) ∧ n < 1114112 := ⟨h1, by omega, h2⟩
  rw [show assembleAux 0 0 0 (UTok.byte (240 + n / 262144) :: UTok.byte (128 + n / 4096 % 64) ::
        UTok.byte (128 + n / 64 % 64) :: UTok.byte (128 + n % 64) :: ts) =
      assembleAux 3 65536 (240 + n / 262144 - 240) (UTok.byte (128 + n / 4096 % 64) ::
        UTok.byte (128 + n / 64 % 64) :: UTok.byte (128 + n % 64) :: ts) by
    simp only [assembleAux, if_neg c1, if_neg c2, if_neg c3, if_neg c4, if_pos c5]]
  rw [show (3 : Nat) = Nat.succ (Nat.succ (Nat.succ 0)) from rfl]
  rw [show assembleAux (Nat.succ (Nat.succ (Nat.succ 0))) 65536 (240 + n / 262144 - 240)
        (UTok.byte (128 + n / 4096 % 64) :: UTok.byte (128 + n / 64 % 64) ::
          UTok.byte (128 + n % 64) :: ts) =
      assembleAux (Nat.succ (Nat.succ 0)) 65536
        ((240 + n / 262144 - 240) * 64 + (128 + n / 4096 % 64 - 128))
        (UTok.byte (128 + n / 64 % 64) :: UTok.byte (128 + n % 64) :: ts) by
    simp only [assembleAux, if_pos c6]]
  rw [show assembleAux (Nat.succ (Nat.succ 0)) 65536
        ((240 + n / 262144 - 240) * 64 + (128 + n / 4096 % 64 - 128))
        (UTok.byte (128 + n / 64 % 64) :: UTok.byte (128 + n % 64) :: ts) =
      assembleAux (Nat.succ 0) 65536
        (((240 + n / 262144 - 240) * 64 + (128 + n / 4096 % 64 - 128)) * 64 +
          (128 + n / 64 % 64 - 128))
        (UTok.byte (128 + n % 64) :: ts) by
    simp only [assembleAux, if_pos c7]]
  simp only [assembleAux, if_pos c8, e, if_pos c9]

/-- Assembling the token run of one character yields that character back. -/
theorem assemble_tokensOf (c : Char) (ts : List UTok) :
    assemble (tokensOf c ++ ts) = Except.map (fun l => c :: l) (assemble ts) := by
  unfold assemble
  by_cases hs : isUriSafe c
  · rw [show tokensOf c = [UTok.lit c] by simp [tokensOf, hs], List.singleton_append]
    exact assembleAux_lit c ts
  · rw [show tokensOf c = (utf8Bytes c.toNat).map UTok.byte by simp [tokensOf, hs]]
    have hsur := char_not_surrogate c
    have hlt := char_toNat_lt c
    unfold utf8Bytes
    by_cases h1 : c.toNat < 128
    · rw [if_pos h1]
      simp only [List.map_cons, List.map_nil, List.cons_append, List.nil_append]
      rw [assembleAux_one _ h1, Char.ofNat_toNat]
    by_cases h2 : c.toNat < 2048
    · rw [if_neg h1, if_pos h2]
      simp only [List.map_cons, List.map_nil, List.cons_append, List.nil_append]
      rw [assembleAux_two c.toNat (by omega) h2, Char.ofNat_toNat]
    by_cases h3 : c.toNat < 65536
    · rw [if_neg h1, if_neg h2, if_pos h3]
      simp only [List.map_cons, List.map_nil, List.cons_append, List.nil_append]
      rw [assembleAux_three c.toNat (by omega) h3 hsur, Char.ofNat_toNat]
    · rw [if_neg h1, if_neg h2, if_neg h3]
      simp only [List.map_cons, List.map_nil, List.cons_append, List.nil_append]
      rw [assembleAux_four c.toNat (by omega) hlt, Char.ofNat_toNat]

/-- Assembling the token runs of a string yields the string back. -/
theorem assemble_flatMap (s : List Char) :
    assemble (s.flatMap tokensOf) = Except.ok s := by
  induction s with
  | nil => rfl
  | cons c s ih =>
    rw [List.flatMap_cons, assemble_tokensOf, ih]
    rfl

/-- Round trip of the URI component coders: decoding an encoded string
recovers it exactly. -/
theorem decode_encode (s : List Char) :
    decodeURIComponent (encodeURIComponent s) = Except.ok s := by
  unfold decodeURIComponent
  rw [tokenize_encode]
  exact assemble_flatMap s

/-- Splitting on `"; "` leaves a string without `;` whole. -/
theorem splitSemiSpace_no_semi : ∀ s : List Char, (∀ c ∈ s, ¬c = ';') →
    splitSemiSpace s = [s]
  | [], _ => rfl
  | [_], _ => rfl
  | c :: c2 :: rest, h => by
    have hc : ¬c = ';' := h c (by simp)
    have ih := splitSemiSpace_no_semi (c2 :: rest) (fun x hx => h x (by simp at hx ⊢; tauto))
    rw [splitSemiSpace, if_neg (by tauto), ih]
    rfl

/-- Splitting on `=` after an `=`-free prefix peels that prefix off as the
first segment. -/
theorem splitEq_append (a b : List Char) (h : ∀ c ∈ a, ¬c = '=') :
    splitEq (a ++ '=' :: b) = a :: splitEq b := by
  induction a with
  | nil => simp [splitEq]
  | cons c a ih =>
    have hc : ¬c = '=' := h c (by simp)
    have ih' := ih (fun x hx => h x (by simp [hx]))
    rw [List.cons_append, splitEq, if_neg hc, ih']
    rfl

/-- Splitting on `=` never produces the empty segment list. -/
theorem splitEq_ne_nil : ∀ v : List Char, splitEq v ≠ []
  | [] => by simp [splitEq]
  | c :: rest => by
    rw [splitEq]
    by_cases hc : c = '='
    · simp [hc]
    · rw [if_neg hc]
      cases splitEq rest <;> simp [consHead]

/-- The first segment of an `=`-split is the portion before the first `=`. -/
theorem splitEq_head : ∀ v : List Char, (splitEq v).getD 0 [] = valueBeforeEq v
  | [] => rfl
  | c :: rest => by
    rw [splitEq, valueBeforeEq, List.takeWhile_cons]
    by_cases hc : c = '='
    · simp [hc]
    · rw [if_neg hc]
      have hne : (c != '=') = true := by simp [hc]
      rw [hne]
      have := splitEq_head rest
      rw [valueBeforeEq] at this
      cases h : splitEq rest with
      | nil => exact absurd h (splitEq_ne_nil rest)
      | cons s ss =>
        rw [h] at this
        simp only [consHead, List.getD_cons_zero] at this ⊢
        rw [this]
        simp

/-- A `isPrefixOf` witness can be turned into an append decomposition. -/
theorem isPrefixOf_exists : ∀ a b : List Char, a.isPrefixOf b = true → ∃ t, b = a ++ t
  | [], b, _ => ⟨b, rfl⟩
  | _ :: _, [], h => by simp [List.isPrefixOf] at h
  | x :: a, y :: b, h => by
    simp only [List.isPrefixOf, Bool.and_eq_true, beq_iff_eq] at h
    obtain ⟨t, ht⟩ := isPrefixOf_exists a b h.2
    exact ⟨t, by rw [h.1, ht]; rfl⟩

/-- A list is a prefix of itself followed by anything. -/
theorem isPrefixOf_self_append (a t : List Char) : a.isPrefixOf (a ++ t) = true := by
  induction a with
  | nil => simp [List.isPrefixOf]
  | cons x a ih => simp [List.isPrefixOf, ih]

/-- Characters of an `encodeURIComponent` output are never `;`, `=` or a
space: cookies built from encoded values survive the two splits intact. -/
theorem encode_mem_ne (t : List Char) :
    ∀ x ∈ encodeURIComponent t, ¬x = ';' ∧ ¬x = '=' := by
  intro x hx
  simp only [encodeURIComponent, List.mem_flatMap] at hx
  obtain ⟨c, _, hc⟩ := hx
  unfold encChar at hc
  by_cases hs : isUriSafe c
  · rw [if_pos hs] at hc
    simp only [List.mem_singleton] at hc
    subst hc
    constructor <;> (intro h; rw [h] at hs; exact absurd hs (by decide))
  · rw [if_neg hs] at hc
    simp only [List.mem_flatMap] at hc
    obtain ⟨b, hb, hbx⟩ := hc
    have hb256 : b < 256 := utf8Bytes_lt c.toNat (char_toNat_lt c) b hb
    simp only [encodeByte, List.mem_cons, List.not_mem_nil, or_false] at hbx
    have hhex : ∀ d : Nat, d < 16 → ¬hexDigitChar d = ';' ∧ ¬hexDigitChar d = '=' := by
      intro d hd
      interval_cases d <;> exact ⟨by decide, by decide⟩
    rcases hbx with rfl | rfl | rfl
    · exact ⟨by decide, by decide⟩
    · exact hhex _ (by omega)
    · exact hhex _ (Nat.mod_lt _ (by decide))

/-- The code's cookie read, compared with the spec-side entry value: absence
agrees, and a present entry is decoded only up to its first `=`. -/
theorem getCookie_vs_spec (cookie : List Char) :
    (specCookieValue cookie = none → getCSRFToken cookie = Except.ok none) ∧
    (∀ v, specCookieValue cookie = some v →
      getCSRFToken cookie = Except.map some (decodeURIComponent (valueBeforeEq v))) := by
  unfold getCSRFToken getCookie specCookieValue
  cases hf : (splitSemiSpace cookie).find? (fun c => (csrfCookieName ++ ['=']).isPrefixOf c) with
  | none => exact ⟨fun _ => rfl, fun v hv => by simp at hv⟩
  | some m =>
    constructor
    · intro h
      simp only [Option.map_some'] at h
      exact absurd h (by simp)
    · intro v hv
      simp only [Option.map_some'] at hv
      have hpm : (csrfCookieName ++ ['=']).isPrefixOf m = true := List.find?_some hf
      obtain ⟨t, ht⟩ := isPrefixOf_exists _ _ hpm
      have hveq : v = t := by
        have : m.drop (csrfCookieName ++ ['=']).length = t := by
          rw [ht, List.drop_left]
        rw [← Option.some_inj, ← hv, this]
      subst hveq
      have hsplit : splitEq m = csrfCookieName :: splitEq v := by
        rw [ht, List.append_assoc, List.singleton_append]
        exact splitEq_append _ _ (by decide)
      show Except.map some (decodeURIComponent ((splitEq m).getD 1 [])) =
        Except.map some (decodeURIComponent (valueBeforeEq v))
      rw [hsplit]
      simp only [List.getD_cons_succ]
      rw [splitEq_head]

/-- Reading back a URL-encoded token stored in the CSRF cookie recovers the
token exactly. -/
theorem getCSRFToken_roundtrip (token : List Char) :
    getCSRFToken (csrfCookieName ++ '=' :: encodeURIComponent token) =
      Except.ok (some token) := by
  have hchars := encode_mem_ne token
  have hnosemi : ∀ c ∈ csrfCookieName ++ '=' :: encodeURIComponent token, ¬c = ';' := by
    intro c hc
    simp only [List.mem_append, List.mem_cons] at hc
    have hname : ∀ c ∈ csrfCookieName, ¬c = ';' := by decide
    rcases hc with hc | hc | hc
    · exact hname c hc
    · rw [hc]; decide
    · exact (hchars c hc).1
  unfold getCSRFToken getCookie
  rw [splitSemiSpace_no_semi _ hnosemi]
  have hpre : (csrfCookieName ++ ['=']).isPrefixOf
      (csrfCookieName ++ '=' :: encodeURIComponent token) = true := by
    have : csrfCookieName ++ '=' :: encodeURIComponent token =
        (csrfCookieName ++ ['=']) ++ encodeURIComponent token := by
      rw [List.append_assoc]; rfl
    rw [this]
    exact isPrefixOf_self_append _ _
  rw [List.find?_cons_of_pos _ hpre]
  have hsplit : splitEq (csrfCookieName ++ '=' :: encodeURIComponent token) =
      csrfCookieName :: splitEq (encodeURIComponent token) := by
    exact splitEq_append _ _ (by decide)
  show Except.map some (decodeURIComponent
      ((splitEq (csrfCookieName ++ '=' :: encodeURIComponent token)).getD 1 [])) =
    Except.ok (some token)
  rw [hsplit]
  simp only [List.getD_cons_succ]
  rw [splitEq_head]
  have henc : valueBeforeEq (encodeURIComponent token) = encodeURIComponent token := by
    unfold valueBeforeEq
    rw [List.takeWhile_eq_self_iff.mpr]
    intro x hx
    simp [(encode_mem_ne token x hx).2]
  rw [henc, decode_encode]
  rfl

/-- refreshSession propagates a cookie-read exception. -/
theorem refreshSession_err {cookie : List Char} {net : Nat → FetchResult} {k : Nat}
    {aud : Option (List Char)} {e : Unit} (hv : getCSRFToken cookie = Except.error e) :
    refreshSession cookie net k aud = (Except.error e, []) := by
  simp only [refreshSession, hv]

/-- refreshSession with no CSRF cookie: false, no network call. -/
theorem refreshSession_none {cookie : List Char} {net : Nat → FetchResult} {k : Nat}
    {aud : Option (List Char)} (hv : getCSRFToken cookie = Except.ok none) :
    refreshSession cookie net k aud = (Except.ok false, []) := by
  simp only [refreshSession, hv]

/-- refreshSession with an empty-string CSRF value (falsy in the source's
`if (!csrf)`): false, no network call. -/
theorem refreshSession_empty {cookie : List Char} {net : Nat → FetchResult} {k : Nat}
    {aud : Option (List Char)} (hv : getCSRFToken cookie = Except.ok (some [])) :
    refreshSession cookie net k aud = (Except.ok false, []) := by
  simp only [refreshSession, hv]
  rfl

/-- refreshSession whose fetch rejects: false, one network call. -/
theorem refreshSession_throws {cookie t : List Char} {net : Nat → FetchResult} {k : Nat}
    (aud : Option (List Char)) (hv : getCSRFToken cookie = Except.ok (some t))
    (htne : ¬t = []) (hk : net k = FetchResult.throws) :
    refreshSession cookie net k aud = (Except.ok false, [refreshCall (aud.getD appStr) t]) := by
  simp only [refreshSession, hv, if_neg htne, hk]

/-- refreshSession whose fetch responds: returns `res.ok`, one network
call. -/
theorem refreshSession_resp {cookie t : List Char} {net : Nat → FetchResult} {k : Nat}
    (aud : Option (List Char)) {r : Response} (hv : getCSRFToken cookie = Except.ok (some t))
    (htne : ¬t = []) (hk : net k = FetchResult.resp r) :
    refreshSession cookie net k aud = (Except.ok r.ok, [refreshCall (aud.getD appStr) t]) := by
  simp only [refreshSession, hv, if_neg htne, hk]

/-- authFetch whose initial fetch rejects: the exception escapes after one
call. -/
theorem authFetch_initThrows {cookie input : List Char} {net : Nat → FetchResult}
    {init : RequestInit} {opts : Option AuthOpts} (h0 : net 0 = FetchResult.throws) :
    authFetch cookie net input init opts = (Except.error (), [(input, withCredentials init)]) := by
  simp only [authFetch, h0]

/-- authFetch whose initial response is not 401: returned unmodified after
one call. -/
theorem authFetch_not401 {cookie input : List Char} {net : Nat → FetchResult}
    {init : RequestInit} {opts : Option AuthOpts} {r : Response}
    (h0 : net 0 = FetchResult.resp r) (hs : ¬r.status = 401) :
    authFetch cookie net input init opts = (Except.ok r, [(input, withCredentials init)]) := by
  simp only [authFetch, h0]
  rw [if_pos hs]

/-- authFetch on 401 when refreshSession throws: the exception escapes. -/
theorem authFetch_refresh_err {cookie input : List Char} {net : Nat → FetchResult}
    {init : RequestInit} {opts : Option AuthOpts} {r : Response} {e : Unit}
    {rcalls : List Call} (h0 : net 0 = FetchResult.resp r) (hs : r.status = 401)
    (hr : refreshSession cookie net 1 (some (requestedAudience opts)) =
      (Except.error e, rcalls)) :
    authFetch cookie net input init opts =
      (Except.error e, (input, withCredentials init) :: rcalls) := by
  simp only [authFetch, h0]
  rw [if_neg (by simp [hs]), hr]

/-- authFetch on 401 when refreshSession returns false: the original 401
response is returned. -/
theorem authFetch_refresh_false {cookie input : List Char} {net : Nat → FetchResult}
    {init : RequestInit} {opts : Option AuthOpts} {r : Response} {rcalls : List Call}
    (h0 : net 0 = FetchResult.resp r) (hs : r.status = 401)
    (hr : refreshSession cookie net 1 (some (requestedAudience opts)) =
      (Except.ok false, rcalls)) :
    authFetch cookie net input init opts =
      (Except.ok r, (input, withCredentials init) :: rcalls) := by
  simp only [authFetch, h0]
  rw [if_neg (by simp [hs]), hr]
  rfl

/-- authFetch on 401 when refresh succeeds but the retry rejects: the retry
exception escapes after the third call. -/
theorem authFetch_retry_throws {cookie input : List Char} {net : Nat → FetchResult}
    {init : RequestInit} {opts : Option AuthOpts} {r : Response} {rcalls : List Call}
    (h0 : net 0 = FetchResult.resp r) (hs : r.status = 401)
    (hr : refreshSession cookie net 1 (some (requestedAudience opts)) =
      (Except.ok true, rcalls))
    (h2 : net (1 + rcalls.length) = FetchResult.throws) :
    authFetch cookie net input init opts =
      (Except.error (),
        (input, withCredentials init) :: rcalls ++ [(input, withCredentials init)]) := by
  simp only [authFetch, h0]
  rw [if_neg (by simp [hs]), hr]
  simp only [if_neg (by decide : ¬true = false), h2]

/-- authFetch on 401 when refresh succeeds and the retry responds: the
second response is returned whatever its status. -/
theorem authFetch_retry_resp {cookie input : List Char} {net : Nat → FetchResult}
    {init : RequestInit} {opts : Option AuthOpts} {r r2 : Response} {rcalls : List Call}
    (h0 : net 0 = FetchResult.resp r) (hs : r.status = 401)
    (hr : refreshSession cookie net 1 (some (requestedAudience opts)) =
      (Except.ok true, rcalls))
    (h2 : net (1 + rcalls.length) = FetchResult.resp r2) :
    authFetch cookie net input init opts =
      (Except.ok r2,
        (input, withCredentials init) :: rcalls ++ [(input, withCredentials init)]) := by
  simp only [authFetch, h0]
  rw [if_neg (by simp [hs]), hr]
  simp only [if_neg (by decide : ¬true = false), h2]

/-- logout propagates a cookie-read exception. -/
theorem logout_err {cookie : List Char} {net : Nat → FetchResult} {opts : Option LogoutOpts}
    {e : Unit} (hv : getCSRFToken cookie = Except.error e) :
    logout cookie net opts = ⟨Except.error e, [], none⟩ := by
  simp only [logout, hv]

/-- logout with no CSRF cookie: `missing_csrf`, no network call. -/
theorem logout_missing {cookie : List Char} {net : Nat → FetchResult}
    {opts : Option LogoutOpts} (hv : getCSRFToken cookie = Except.ok none) :
    logout cookie net opts = ⟨Except.ok LogoutResult.missing_csrf, [], none⟩ := by
  simp only [logout, hv]

/-- logout with an empty CSRF value (falsy): `missing_csrf`, no network
call. -/
theorem logout_empty {cookie : List Char} {net : Nat → FetchResult}
    {opts : Option LogoutOpts} (hv : getCSRFToken cookie = Except.ok (some [])) :
    logout cookie net opts = ⟨Except.ok LogoutResult.missing_csrf, [], none⟩ := by
  simp only [logout, hv]
  rfl

/-- logout whose fetch rejects: `request_failed` after one call. -/
theorem logout_throws {cookie t : List Char} {net : Nat → FetchResult}
    {opts : Option LogoutOpts} (hv : getCSRFToken cookie = Except.ok (some t))
    (htne : ¬t = []) (h0 : net 0 = FetchResult.throws) :
    logout cookie net opts =
      ⟨Except.ok LogoutResult.request_failed, [(logoutUrl, csrfPostInit t)], none⟩ := by
  simp only [logout, hv, if_neg htne, h0]

/-- logout on a non-success 401/403 response: `unauthorized`. -/
theorem logout_unauthorized {cookie t : List Char} {net : Nat → FetchResult}
    {opts : Option LogoutOpts} {r : Response} (hv : getCSRFToken cookie = Except.ok (some t))
    (htne : ¬t = []) (h0 : net 0 = FetchResult.resp r) (hok : r.ok = false)
    (hst : r.status = 401 ∨ r.status = 403) :
    logout cookie net opts =
      ⟨Except.ok LogoutResult.unauthorized, [(logoutUrl, csrfPostInit t)], none⟩ := by
  simp only [logout, hv, if_neg htne, h0, hok, if_true]
  rw [if_pos hst]

/-- logout on any other non-success response: `request_failed`. -/
theorem logout_failed_status {cookie t : List Char} {net : Nat → FetchResult}
    {opts : Option LogoutOpts} {r : Response} (hv : getCSRFToken cookie = Except.ok (some t))
    (htne : ¬t = []) (h0 : net 0 = FetchResult.resp r) (hok : r.ok = false)
    (hst : ¬(r.status = 401 ∨ r.status = 403)) :
    logout cookie net opts =
      ⟨Except.ok LogoutResult.request_failed, [(logoutUrl, csrfPostInit t)], none⟩ := by
  simp only [logout, hv, if_neg htne, h0, hok, if_true]
  rw [if_neg hst]

/-- logout on a success response: `ok`, with navigation exactly to a truthy
supplied redirect target. -/
theorem logout_success {cookie t : List Char} {net : Nat → FetchResult}
    {opts : Option LogoutOpts} {r : Response} (hv : getCSRFToken cookie = Except.ok (some t))
    (htne : ¬t = []) (h0 : net 0 = FetchResult.resp r) (hok : r.ok = true) :
    logout cookie net opts =
      ⟨Except.ok LogoutResult.success, [(logoutUrl, csrfPostInit t)], navTarget opts⟩ := by
  simp only [logout, hv, if_neg htne, h0, hok]
  rw [if_neg (by simp)]
  cases opts with
  | none => rfl
  | some o =>
    cases ho : o.redirectTo with
    | none => simp [navTarget, ho]
    | some u =>
      by_cases hu : u = []
      · simp [navTarget, ho, hu]
      · simp [navTarget, ho, hu]

/-- Clause shared by the authFetch claims: whenever the initial response is
401 and the CSRF token is truthy, the second issued call is the refresh
request for the requested audience. -/
theorem authFetch_second_call {cookie t : List Char} (input : List Char)
    {net : Nat → FetchResult} (init : RequestInit) (opts : Option AuthOpts) {r : Response}
    (h0 : net 0 = FetchResult.resp r) (hs : r.status = 401)
    (ht : getCSRFToken cookie = Except.ok (some t)) (htne : ¬t = []) :
    (authFetch cookie net input init opts).2.get? 1 =
      some (refreshCall (requestedAudience opts) t) := by
  cases h1 : net 1 with
  | throws =>
    rw [authFetch_refresh_false h0 hs
      (refreshSession_throws (some (requestedAudience opts)) ht htne h1)]
    rfl
  | resp r1 =>
    have hr := refreshSession_resp (some (requestedAudience opts)) ht htne h1
    cases hok : r1.ok with
    | false =>
      rw [hok] at hr
      rw [authFetch_refresh_false h0 hs hr]
      rfl
    | true =>
      rw [hok] at hr
      cases h2 : net 2 with
      | throws =>
        rw [authFetch_retry_throws h0 hs hr h2]
        rfl
      | resp r2 =>
        rw [authFetch_retry_resp h0 hs hr h2]
        rfl

/-- C1 (amended): authFetch always issues the caller's request first with
credentials forced to `include`; a non-401 response is returned unmodified
after exactly one network call; on a 401 with a falsy CSRF read (cookie
missing or empty value) the original 401 is returned after exactly one
network call and no refresh request (the claim said two calls); on a 401
with a truthy CSRF token, a failed refresh returns the original 401 after
exactly two calls in the order original, refresh, and a successful refresh
re-issues the original request exactly once, returning the second response
whatever its outcome, with exactly three calls in the order original,
refresh, retry and never a second refresh. -/
theorem claim1_authFetch_retry_machine (cookie input : List Char) (net : Nat → FetchResult)
    (init : RequestInit) (opts : Option AuthOpts) :
    ((authFetch cookie net input init opts).2.head? = some (input, withCredentials init) ∧
      (withCredentials init).credentials = some includeStr) ∧
    (∀ r, net 0 = FetchResult.resp r → ¬r.status = 401 →
      authFetch cookie net input init opts = (Except.ok r, [(input, withCredentials init)])) ∧
    (∀ r, net 0 = FetchResult.resp r → r.status = 401 →
      ((getCSRFToken cookie = Except.ok none ∨ getCSRFToken cookie = Except.ok (some []) →
        authFetch cookie net input init opts = (Except.ok r, [(input, withCredentials init)])) ∧
      (∀ t, getCSRFToken cookie = Except.ok (some t) → ¬t = [] →
        ((net 1 = FetchResult.throws ∨ (∃ r1, net 1 = FetchResult.resp r1 ∧ r1.ok = false) →
          authFetch cookie net input init opts = (Except.ok r,
            [(input, withCredentials init), refreshCall (requestedAudience opts) t])) ∧
        (∀ r1, net 1 = FetchResult.resp r1 → r1.ok = true →
          ((net 2 = FetchResult.throws → authFetch cookie net input init opts =
            (Except.error (),
              [(input, withCredentials init), refreshCall (requestedAudience opts) t,
                (input, withCredentials init)])) ∧
          (∀ r2, net 2 = FetchResult.resp r2 → authFetch cookie net input init opts =
            (Except.ok r2,
              [(input, withCredentials init), refreshCall (requestedAudience opts) t,
                (input, withCredentials init)])))))))) := by
  refine ⟨⟨?_, rfl⟩, ?_, ?_⟩
  · cases h0 : net 0 with
    | throws =>
      rw [authFetch_initThrows h0]
      rfl
    | resp r =>
      by_cases hs : r.status = 401
      · rcases hr : refreshSession cookie net 1 (some (requestedAudience opts)) with ⟨rr, rcalls⟩
        cases rr with
        | error e =>
          rw [authFetch_refresh_err h0 hs hr]
          rfl
        | ok b =>
          cases b with
          | false =>
            rw [authFetch_refresh_false h0 hs hr]
            rfl
          | true =>
            cases h2 : net (1 + rcalls.length) with
            | throws =>
              rw [authFetch_retry_throws h0 hs hr h2]
              rfl
            | resp r2 =>
              rw [authFetch_retry_resp h0 hs hr h2]
              rfl
      · rw [authFetch_not401 h0 hs]
        rfl
  · intro r h0 hs
    exact authFetch_not401 h0 hs
  · intro r h0 hs
    refine ⟨?_, ?_⟩
    · intro hcs
      rcases hcs with hcs | hcs
      · exact authFetch_refresh_false h0 hs (refreshSession_none hcs)
      · exact authFetch_refresh_false h0 hs (refreshSession_empty hcs)
    · intro t ht htne
      refine ⟨?_, ?_⟩
      · intro hf
        rcases hf with h1 | ⟨r1, h1, h1ok⟩
        · exact authFetch_refresh_false h0 hs (refreshSession_throws (some (requestedAudience opts)) ht htne h1)
        · have hr := refreshSession_resp (some (requestedAudience opts)) ht htne h1
          rw [h1ok] at hr
          exact authFetch_refresh_false h0 hs hr
      · intro r1 h1 h1ok
        have hr := refreshSession_resp (some (requestedAudience opts)) ht htne h1
        rw [h1ok] at hr
        refine ⟨?_, ?_⟩
        · intro h2
          exact authFetch_retry_throws h0 hs hr h2
        · intro r2 h2
          exact authFetch_retry_resp h0 hs hr h2

/-- C1 counterexample: a 401 initial response with no CSRF cookie makes
refreshSession return false, yet authFetch issues exactly one network call,
not the two calls the claim states for every false refresh result. -/
theorem claim1_cex_one_call_when_csrf_missing :
    (refreshSession [] net401 1 (some appStr)).1 = Except.ok false ∧
    net401 0 = FetchResult.resp resp401 ∧
    resp401.status = 401 ∧
    authFetch [] net401 apiUrl emptyInit none =
      (Except.ok resp401, [(apiUrl, withCredentials emptyInit)]) ∧
    (authFetch [] net401 apiUrl emptyInit none).2.length = 1 :=
  ⟨rfl, rfl, rfl, rfl, rfl⟩

/-- C1 witness: concrete run 401, successful refresh, 200, with the default
audience: three calls in order and the retry response returned. -/
theorem claim1_witness :
    authFetch okCookie netRetryOk apiUrl emptyInit none =
      (Except.ok resp200,
        [(apiUrl, withCredentials emptyInit), refreshCall appStr tokStr,
          (apiUrl, withCredentials emptyInit)]) := by
  have h := (claim1_authFetch_retry_machine okCookie apiUrl netRetryOk emptyInit none).2.2
  have h2 := ((h resp401 rfl rfl).2 tokStr rfl (by decide)).2 resp200 rfl rfl
  exact h2.2 resp200 rfl

/-- C2: on a 401 with a truthy CSRF token, the refresh request targets
`POST /auth/refresh?audience=<url-encoded audience>`; with no audience
option supplied to authFetch, or no argument to refreshSession, the
audience used is `app`. -/
theorem claim2_refresh_audience (cookie input a t : List Char) (net : Nat → FetchResult)
    (init : RequestInit) (r : Response)
    (h0 : net 0 = FetchResult.resp r) (hs : r.status = 401)
    (ht : getCSRFToken cookie = Except.ok (some t)) (htne : ¬t = []) :
    ((authFetch cookie net input init (some ⟨some a⟩)).2.get? 1 =
      some (refreshUrlPrefix ++ encodeURIComponent a, csrfPostInit t)) ∧
    ((csrfPostInit t).method = some postStr) ∧
    ((authFetch cookie net input init none).2.get? 1 =
      some (refreshUrlPrefix ++ appStr, csrfPostInit t)) ∧
    ((refreshSession cookie net 1 none).2 =
      [(refreshUrlPrefix ++ appStr, csrfPostInit t)]) := by
  refine ⟨?_, rfl, ?_, ?_⟩
  · exact authFetch_second_call input init (some ⟨some a⟩) h0 hs ht htne
  · have h := authFetch_second_call input init none h0 hs ht htne
    rw [h]
    rfl
  · cases h1 : net 1 with
    | throws =>
      rw [refreshSession_throws none ht htne h1]
      rfl
    | resp r1 =>
      rw [refreshSession_resp none ht htne h1]
      rfl

/-- C2 witness: concrete 401 run with audience `admin` and CSRF token
`tok`: the refresh call targets `audience=admin`; the default-audience
variants target `audience=app`. -/
theorem claim2_witness :
    ((authFetch okCookie netRetryOk apiUrl emptyInit (some ⟨some adminStr⟩)).2.get? 1 =
      some (refreshUrlPrefix ++ encodeURIComponent adminStr, csrfPostInit tokStr)) ∧
    ((refreshSession okCookie netRetryOk 1 none).2 =
      [(refreshUrlPrefix ++ appStr, csrfPostInit tokStr)]) := by
  have h := claim2_refresh_audience okCookie apiUrl adminStr tokStr netRetryOk emptyInit
    resp401 rfl rfl rfl (by decide)
  exact ⟨h.1, h.2.2.2⟩

/-- C3 (amended): provided the CSRF cookie read itself does not throw,
authFetch never throws for authentication-domain failures — a missing CSRF
token and a failed refresh are absorbed and the original 401 response is
returned — while an exception of the initial or retried fetch propagates
unmodified, and those two fetches are the only sources of an escaping
exception. (The claim as stated fails when the CSRF cookie value has
malformed percent-encoding: the cookie read throws through authFetch.) -/
theorem claim3_authFetch_throw_policy (cookie input : List Char) (net : Nat → FetchResult)
    (init : RequestInit) (opts : Option AuthOpts) (v : Option (List Char))
    (hv : getCSRFToken cookie = Except.ok v) :
    (∀ r, net 0 = FetchResult.resp r → r.status = 401 → v = none →
      (authFetch cookie net input init opts).1 = Except.ok r) ∧
    (∀ r t, net 0 = FetchResult.resp r → r.status = 401 → v = some t →
      (net 1 = FetchResult.throws ∨ (∃ r1, net 1 = FetchResult.resp r1 ∧ r1.ok = false)) →
      (authFetch cookie net input init opts).1 = Except.ok r) ∧
    (net 0 = FetchResult.throws →
      authFetch cookie net input init opts =
        (Except.error (), [(input, withCredentials init)])) ∧
    (∀ r r1 t, net 0 = FetchResult.resp r → r.status = 401 → v = some t → ¬t = [] →
      net 1 = FetchResult.resp r1 → r1.ok = true → net 2 = FetchResult.throws →
      (authFetch cookie net input init opts).1 = Except.error ()) ∧
    (∀ e, (authFetch cookie net input init opts).1 = Except.error e →
      net 0 = FetchResult.throws ∨ net 2 = FetchResult.throws) := by
  refine ⟨?_, ?_, ?_, ?_, ?_⟩
  · intro r h0 hs hn
    subst hn
    rw [authFetch_refresh_false h0 hs (refreshSession_none hv)]
  · intro r t h0 hs hsome hf
    subst hsome
    by_cases htne : t = []
    · subst htne
      rw [authFetch_refresh_false h0 hs (refreshSession_empty hv)]
    · rcases hf with h1 | ⟨r1, h1, h1ok⟩
      · rw [authFetch_refresh_false h0 hs
          (refreshSession_throws (some (requestedAudience opts)) hv htne h1)]
      · have hr := refreshSession_resp (some (requestedAudience opts)) hv htne h1
        rw [h1ok] at hr
        rw [authFetch_refresh_false h0 hs hr]
  · intro h0
    exact authFetch_initThrows h0
  · intro r r1 t h0 hs hsome htne h1 h1ok h2
    subst hsome
    have hr := refreshSession_resp (some (requestedAudience opts)) hv htne h1
    rw [h1ok] at hr
    rw [authFetch_retry_throws h0 hs hr h2]
  · intro e he
    cases h0 : net 0 with
    | throws => exact Or.inl rfl
    | resp r =>
      by_cases hs : r.status = 401
      · cases hvv : v with
        | none =>
          rw [hvv] at hv
          rw [authFetch_refresh_false h0 hs (refreshSession_none hv)] at he
          exact absurd he (by simp)
        | some t =>
          rw [hvv] at hv
          by_cases htne : t = []
          · subst htne
            rw [authFetch_refresh_false h0 hs (refreshSession_empty hv)] at he
            exact absurd he (by simp)
          · cases h1 : net 1 with
            | throws =>
              rw [authFetch_refresh_false h0 hs (refreshSession_throws (some (requestedAudience opts)) hv htne h1)] at he
              exact absurd he (by simp)
            | resp r1 =>
              have hr := refreshSession_resp (some (requestedAudience opts)) hv htne h1
              cases h1ok : r1.ok with
              | false =>
                rw [h1ok] at hr
                rw [authFetch_refresh_false h0 hs hr] at he
                exact absurd he (by simp)
              | true =>
                rw [h1ok] at hr
                cases h2 : net 2 with
                | throws => exact Or.inr rfl
                | resp r2 =>
                  rw [authFetch_retry_resp h0 hs hr h2] at he
                  exact absurd he (by simp)
      · rw [authFetch_not401 h0 hs] at he
        exact absurd he (by simp)

/-- C3 counterexample: with CSRF cookie value `%` (malformed
percent-encoding) and a network that never rejects, authFetch throws the
`URIError` after the completed initial 401 and before any retry — an
authentication-domain throw not coming from the initial or retried fetch. -/
theorem claim3_cex_throws_without_fetch_throw :
    (∀ k, net401 k = FetchResult.resp resp401) ∧
    authFetch badCookie net401 apiUrl emptyInit none =
      (Except.error (), [(apiUrl, withCredentials emptyInit)]) :=
  ⟨fun _ => rfl, rfl⟩

/-- C3 witness: a rejecting initial fetch propagates out of authFetch. -/
theorem claim3_witness :
    authFetch okCookie netThrows apiUrl emptyInit none =
      (Except.error (), [(apiUrl, withCredentials emptyInit)]) :=
  (claim3_authFetch_throw_policy okCookie apiUrl netThrows emptyInit none
    (some tokStr) rfl).2.2.1 rfl

/-- Bool-level description of a success status, used to connect `res.ok`
with concrete statuses. -/
theorem response_ok_of_status {r : Response} {n : Nat} (h : r.status = n)
    (hn : ¬(200 ≤ n ∧ n ≤ 299)) : r.ok = false := by
  unfold Response.ok
  rw [h]
  exact decide_eq_false hn

/-- C4 (amended): provided the CSRF cookie read itself does not throw,
logout returns `missing_csrf` with no network call when the cookie is
absent; with a truthy token it returns `request_failed` on a rejected
transport call, returns `unauthorized` exactly when the response status is
401 or 403, returns `request_failed` on any other non-success status,
returns ok on a success status, always after exactly one call to
`POST /auth/logout`; and it never surfaces an exception. (The claim as
stated fails when the CSRF cookie value has malformed percent-encoding:
the cookie read throws out of logout.) -/
theorem claim4_logout_outcomes (cookie : List Char) (net : Nat → FetchResult)
    (opts : Option LogoutOpts) (v : Option (List Char))
    (hv : getCSRFToken cookie = Except.ok v) :
    (v = none → logout cookie net opts = ⟨Except.ok LogoutResult.missing_csrf, [], none⟩) ∧
    (∀ t, v = some t → ¬t = [] →
      ((net 0 = FetchResult.throws →
        logout cookie net opts =
          ⟨Except.ok LogoutResult.request_failed, [(logoutUrl, csrfPostInit t)], none⟩) ∧
      (∀ r, net 0 = FetchResult.resp r →
        (((logout cookie net opts).result = Except.ok LogoutResult.unauthorized ↔
          (r.status = 401 ∨ r.status = 403)) ∧
        (r.ok = false → ¬(r.status = 401 ∨ r.status = 403) →
          (logout cookie net opts).result = Except.ok LogoutResult.request_failed) ∧
        (r.ok = true → (logout cookie net opts).result = Except.ok LogoutResult.success) ∧
        (logout cookie net opts).calls = [(logoutUrl, csrfPostInit t)])))) ∧
    (∀ e, ¬(logout cookie net opts).result = Except.error e) := by
  refine ⟨?_, ?_, ?_⟩
  · intro hn
    subst hn
    exact logout_missing hv
  · intro t hsome htne
    subst hsome
    refine ⟨fun h0 => logout_throws hv htne h0, ?_⟩
    intro r h0
    by_cases hok : r.ok = true
    · have hne : ¬(r.status = 401 ∨ r.status = 403) := by
        unfold Response.ok at hok
        have hrange := of_decide_eq_true hok
        omega
      rw [logout_success hv htne h0 hok]
      refine ⟨?_, ?_, fun _ => rfl, rfl⟩
      · constructor
        · intro hres
          exact absurd hres (by simp)
        · intro hc
          exact absurd hc hne
      · intro hf _
        exact absurd hok (by simp [hf])
    · have hokf : r.ok = false := by
        cases hb : r.ok
        · rfl
        · exact absurd hb hok
      by_cases hst : r.status = 401 ∨ r.status = 403
      · rw [logout_unauthorized hv htne h0 hokf hst]
        exact ⟨⟨fun _ => hst, fun _ => rfl⟩, fun _ hn => absurd hst hn,
          fun ht => absurd ht hok, rfl⟩
      · rw [logout_failed_status hv htne h0 hokf hst]
        refine ⟨⟨?_, fun hc => absurd hc hst⟩, fun _ _ => rfl, fun ht => absurd ht hok, rfl⟩
        intro hres
        exact absurd hres (by simp)
  · intro e
    cases v with
    | none =>
      rw [logout_missing hv]
      simp
    | some t =>
      by_cases htne : t = []
      · subst htne
        rw [logout_empty hv]
        simp
      · cases h0 : net 0 with
        | throws =>
          rw [logout_throws hv htne h0]
          simp
        | resp r =>
          by_cases hok : r.ok = true
          · rw [logout_success hv htne h0 hok]
            simp
          · have hokf : r.ok = false := by
              cases hb : r.ok
              · rfl
              · exact absurd hb hok
            by_cases hst : r.status = 401 ∨ r.status = 403
            · rw [logout_unauthorized hv htne h0 hokf hst]
              simp
            · rw [logout_failed_status hv htne h0 hokf hst]
              simp

/-- C4 counterexample: with CSRF cookie value `%` (malformed
percent-encoding), logout raises an uncaught `URIError` instead of
returning a typed outcome, before issuing any network call. -/
theorem claim4_cex_logout_throws :
    logout badCookie net200 none = ⟨Except.error (), [], none⟩ := rfl

/-- C4 witness: concrete 401 logout response yields `unauthorized` after
one call. -/
theorem claim4_witness :
    (logout okCookie net401 none).result = Except.ok LogoutResult.unauthorized ∧
    (logout okCookie net401 none).calls = [(logoutUrl, csrfPostInit tokStr)] := by
  have h := ((claim4_logout_outcomes okCookie net401 none (some tokStr) rfl).2.1
    tokStr rfl (by decide)).2 resp401 rfl
  exact ⟨h.1.mpr (Or.inl rfl), h.2.2.2⟩

/-- Value of `navTarget` as an equation on options. -/
theorem navTarget_eq_some (opts : Option LogoutOpts) (u : List Char) :
    navTarget opts = some u ↔ (opts.bind LogoutOpts.redirectTo = some u ∧ ¬u = []) := by
  unfold navTarget
  cases h : opts.bind LogoutOpts.redirectTo with
  | none => simp
  | some w =>
    show (if w = [] then none else some w) = some u ↔ (some w = some u ∧ ¬u = [])
    by_cases hw : w = []
    · subst hw
      simp only [if_pos rfl]
      constructor
      · intro hc
        exact absurd hc (by simp)
      · rintro ⟨h1, h2⟩
        rw [Option.some_inj] at h1
        exact absurd h1.symm h2
    · rw [if_neg hw]
      constructor
      · intro h1
        rw [Option.some_inj] at h1
        subst h1
        exact ⟨rfl, hw⟩
      · rintro ⟨h1, _⟩
        exact h1

/-- C5 (amended): logout performs a client-side navigation exactly when the
request succeeded and `redirectTo` was supplied with a truthy (non-empty)
URL — an empty string is falsy in the source's `if (opts?.redirectTo)`, so
a supplied empty URL does not navigate (the claim said any supplied URL
does); the navigation target is exactly the supplied URL, no navigation
happens on any failure outcome, and the returned outcome never depends on
the redirect option. -/
theorem claim5_logout_navigation (cookie : List Char) (net : Nat → FetchResult)
    (opts : Option LogoutOpts) (u : List Char) :
    ((logout cookie net opts).nav = some u ↔
      ((logout cookie net opts).result = Except.ok LogoutResult.success ∧
        opts.bind LogoutOpts.redirectTo = some u ∧ ¬u = [])) ∧
    (∀ opts2, (logout cookie net opts).result = (logout cookie net opts2).result) := by
  have main : ∀ o : Option LogoutOpts,
      ((logout cookie net o).result = Except.ok LogoutResult.success →
        (logout cookie net o).nav = navTarget o) ∧
      (¬(logout cookie net o).result = Except.ok LogoutResult.success →
        (logout cookie net o).nav = none) ∧
      ((logout cookie net o).result = Except.ok LogoutResult.success ↔
        (∃ t r, getCSRFToken cookie = Except.ok (some t) ∧ ¬t = [] ∧
          net 0 = FetchResult.resp r ∧ r.ok = true)) := by
    intro o
    cases hv : getCSRFToken cookie with
    | error e =>
      rw [logout_err hv]
      refine ⟨fun hc => absurd hc (by simp), fun _ => rfl, ?_⟩
      constructor
      · intro hc
        exact absurd hc (by simp)
      · rintro ⟨t, r, ht, _, _, _⟩
        exact absurd ht (by simp)
    | ok v =>
      cases v with
      | none =>
        rw [logout_missing hv]
        refine ⟨fun hc => absurd hc (by simp), fun _ => rfl, ?_⟩
        constructor
        · intro hc
          exact absurd hc (by simp)
        · rintro ⟨t, r, ht, _, _, _⟩
          exact absurd ht (by simp)
      | some t =>
        by_cases htne : t = []
        · subst htne
          rw [logout_empty hv]
          refine ⟨fun hc => absurd hc (by simp), fun _ => rfl, ?_⟩
          constructor
          · intro hc
            exact absurd hc (by simp)
          · rintro ⟨t2, r, ht, htn, _, _⟩
            have ht2 : t2 = [] := (Option.some.inj (Except.ok.inj ht)).symm
            exact (htn ht2).elim
        · cases h0 : net 0 with
          | throws =>
            rw [logout_throws hv htne h0]
            refine ⟨fun hc => absurd hc (by simp), fun _ => rfl, ?_⟩
            constructor
            · intro hc
              exact absurd hc (by simp)
            · rintro ⟨t2, r, _, _, hn, _⟩
              exact absurd hn (by simp)
          | resp r =>
            by_cases hok : r.ok = true
            · rw [logout_success hv htne h0 hok]
              refine ⟨fun _ => rfl, fun hc => absurd rfl hc, ?_⟩
              constructor
              · intro _
                exact ⟨t, r, rfl, htne, rfl, hok⟩
              · intro _
                rfl
            · have hokf : r.ok = false := by
                cases hb : r.ok
                · rfl
                · exact absurd hb hok
              by_cases hst : r.status = 401 ∨ r.status = 403
              · rw [logout_unauthorized hv htne h0 hokf hst]
                refine ⟨fun hc => absurd hc (by simp), fun _ => rfl, ?_⟩
                constructor
                · intro hc
                  exact absurd hc (by simp)
                · rintro ⟨t2, r2, _, _, hn, hok2⟩
                  rw [show r = r2 from FetchResult.resp.inj hn] at hokf
                  rw [hok2] at hokf
                  exact absurd hokf (by simp)
              · rw [logout_failed_status hv htne h0 hokf hst]
                refine ⟨fun hc => absurd hc (by simp), fun _ => rfl, ?_⟩
                constructor
                · intro hc
                  exact absurd hc (by simp)
                · rintro ⟨t2, r2, _, _, hn, hok2⟩
                  rw [show r = r2 from FetchResult.resp.inj hn] at hokf
                  rw [hok2] at hokf
                  exact absurd hokf (by simp)
  obtain ⟨hpos, hneg, hres⟩ := main opts
  constructor
  · constructor
    · intro h
      by_cases hs : (logout cookie net opts).result = Except.ok LogoutResult.success
      · rw [hpos hs] at h
        have hd := (navTarget_eq_some opts u).mp h
        exact ⟨hs, hd.1, hd.2⟩
      · rw [hneg hs] at h
        exact absurd h (by simp)
    · rintro ⟨h1, h2, h3⟩
      rw [hpos h1]
      exact (navTarget_eq_some opts u).mpr ⟨h2, h3⟩
  · intro opts2
    obtain ⟨_, _, hres2⟩ := main opts2
    by_cases hs : (logout cookie net opts).result = Except.ok LogoutResult.success
    · rw [hs, (hres2.mpr (hres.mp hs)).symm]
    · cases hv : getCSRFToken cookie with
      | error e =>
        rw [@logout_err cookie net opts e hv, @logout_err cookie net opts2 e hv]
      | ok v =>
        cases v with
        | none =>
          rw [@logout_missing cookie net opts hv, @logout_missing cookie net opts2 hv]
        | some t =>
          by_cases htne : t = []
          · subst htne
            rw [@logout_empty cookie net opts hv, @logout_empty cookie net opts2 hv]
          · cases h0 : net 0 with
            | throws =>
              rw [@logout_throws cookie t net opts hv htne h0,
                @logout_throws cookie t net opts2 hv htne h0]
            | resp r =>
              by_cases hok : r.ok = true
              · rw [@logout_success cookie t net opts r hv htne h0 hok,
                  @logout_success cookie t net opts2 r hv htne h0 hok]
              · have hokf : r.ok = false := by
                  cases hb : r.ok
                  · rfl
                  · exact absurd hb hok
                by_cases hst : r.status = 401 ∨ r.status = 403
                · rw [@logout_unauthorized cookie t net opts r hv htne h0 hokf hst,
                    @logout_unauthorized cookie t net opts2 r hv htne h0 hokf hst]
                · rw [@logout_failed_status cookie t net opts r hv htne h0 hokf hst,
                    @logout_failed_status cookie t net opts2 r hv htne h0 hokf hst]

/-- C5 counterexample: a successful logout with `redirectTo` supplied as the
empty string performs no navigation, refuting the claim's "if and only if
... the redirectTo option was supplied". -/
theorem claim5_cex_empty_redirect :
    (logout okCookie net200 (some ⟨some []⟩)).result = Except.ok LogoutResult.success ∧
    (some (LogoutOpts.mk (some []))).bind LogoutOpts.redirectTo = some [] ∧
    (logout okCookie net200 (some ⟨some []⟩)).nav = none :=
  ⟨rfl, rfl, rfl⟩

/-- C5 witness: a successful logout with `redirectTo = "/after"` navigates
exactly there. -/
theorem claim5_witness :
    (logout okCookie net200 (some ⟨some afterUrl⟩)).nav = some afterUrl :=
  (claim5_logout_navigation okCookie net200 (some ⟨some afterUrl⟩) afterUrl).1.mpr
    ⟨rfl, rfl, by decide⟩

/-- C6 (amended): provided the CSRF cookie read itself does not throw,
refreshSession returns false with no network call when the cookie is
absent; with a truthy token it issues exactly one refresh request and
returns true iff that call completed with a success status, false on a
rejected transport call or any non-success status, with no finer
distinction; and it never surfaces an exception. (The claim as stated
fails when the CSRF cookie value has malformed percent-encoding: the
cookie read throws out of refreshSession.) -/
theorem claim6_refreshSession_outcomes (cookie : List Char) (net : Nat → FetchResult)
    (aud : Option (List Char)) (v : Option (List Char))
    (hv : getCSRFToken cookie = Except.ok v) :
    (v = none → refreshSession cookie net 0 aud = (Except.ok false, [])) ∧
    (∀ t, v = some t → ¬t = [] →
      ((net 0 = FetchResult.throws →
        refreshSession cookie net 0 aud =
          (Except.ok false, [refreshCall (aud.getD appStr) t])) ∧
      (∀ r, net 0 = FetchResult.resp r →
        refreshSession cookie net 0 aud =
          (Except.ok r.ok, [refreshCall (aud.getD appStr) t])) ∧
      ((refreshSession cookie net 0 aud).1 = Except.ok true ↔
        ∃ r, net 0 = FetchResult.resp r ∧ r.ok = true))) ∧
    (∀ e, ¬(refreshSession cookie net 0 aud).1 = Except.error e) := by
  refine ⟨?_, ?_, ?_⟩
  · intro hn
    subst hn
    exact refreshSession_none hv
  · intro t hsome htne
    subst hsome
    refine ⟨fun h0 => refreshSession_throws aud hv htne h0, fun r h0 =>
      refreshSession_resp aud hv htne h0, ?_⟩
    constructor
    · intro h1
      cases h0 : net 0 with
      | throws =>
        rw [refreshSession_throws aud hv htne h0] at h1
        exact absurd h1 (by simp)
      | resp r =>
        rw [refreshSession_resp aud hv htne h0] at h1
        refine ⟨r, rfl, ?_⟩
        have := Except.ok.inj h1
        exact this
    · rintro ⟨r, h0, hok⟩
      rw [refreshSession_resp aud hv htne h0, hok]
  · intro e
    cases v with
    | none =>
      rw [refreshSession_none hv]
      simp
    | some t =>
      by_cases htne : t = []
      · subst htne
        rw [refreshSession_empty hv]
        simp
      · cases h0 : net 0 with
        | throws =>
          rw [refreshSession_throws aud hv htne h0]
          simp
        | resp r =>
          rw [refreshSession_resp aud hv htne h0]
          simp

/-- C6 counterexample: with CSRF cookie value `%` (malformed
percent-encoding), refreshSession raises an uncaught `URIError` instead of
returning false. -/
theorem claim6_cex_refresh_throws :
    refreshSession badCookie net200 0 none = (Except.error (), []) := rfl

/-- C6 witness: concrete successful refresh returns true after one call;
with the CSRF cookie absent it returns false with no call. -/
theorem claim6_witness :
    refreshSession okCookie net200 0 none =
      (Except.ok true, [refreshCall appStr tokStr]) ∧
    refreshSession [] net200 0 none = (Except.ok false, []) := by
  constructor
  · have h := ((claim6_refreshSession_outcomes okCookie net200 none (some tokStr) rfl).2.1
      tokStr rfl (by decide)).2.1 resp200 rfl
    exact h
  · exact (claim6_refreshSession_outcomes [] net200 none none rfl).1 rfl

/-- C7 (amended): getCSRFToken reports absence exactly when no
`"; "`-separated entry of the cookie string has key `authgate_csrf`; when
such an entry is present with value `v` (everything after its first `=`),
the code returns the URL-decoding of only the portion of `v` before the
next `=` (the source's `match.split("=")[1]`), the decode error escaping
when that portion has malformed percent-encoding (the claim said the whole
value is decoded); and URL-encoding a token into the cookie and reading it
back recovers the token exactly. -/
theorem claim7_getCSRFToken_value (cookie token : List Char) :
    (getCSRFToken cookie = Except.ok none ↔ specCookieValue cookie = none) ∧
    (∀ v, specCookieValue cookie = some v →
      getCSRFToken cookie = Except.map some (decodeURIComponent (valueBeforeEq v))) ∧
    getCSRFToken (csrfCookieName ++ '=' :: encodeURIComponent token) =
      Except.ok (some token) := by
  obtain ⟨habs, hval⟩ := getCookie_vs_spec cookie
  refine ⟨⟨?_, habs⟩, hval, getCSRFToken_roundtrip token⟩
  intro h
  cases hs : specCookieValue cookie with
  | none => rfl
  | some v =>
    rw [hval v hs] at h
    cases hd : decodeURIComponent (valueBeforeEq v) with
    | error e =>
      rw [hd] at h
      exact absurd h (by simp [Except.map])
    | ok w =>
      rw [hd] at h
      exact absurd h (by simp [Except.map])

/-- C7 counterexample: for the cookie `authgate_csrf=a=b` the entry's value
is `a=b`, whose URL-decoding is `a=b`, but getCSRFToken returns `a`: the
value is truncated at the second `=`. -/
theorem claim7_cex_value_truncated :
    specCookieValue eqCookie = some aEqBStr ∧
    decodeURIComponent aEqBStr = Except.ok aEqBStr ∧
    getCSRFToken eqCookie = Except.ok (some aStr) ∧
    ¬aStr = aEqBStr :=
  ⟨rfl, rfl, rfl, by decide⟩

/-- C7 witness: concrete round trip and concrete present-entry read. -/
theorem claim7_witness :
    getCSRFToken (csrfCookieName ++ '=' :: encodeURIComponent tokStr) =
      Except.ok (some tokStr) ∧
    getCSRFToken okCookie = Except.map some (decodeURIComponent (valueBeforeEq tokStr)) := by
  have h := claim7_getCSRFToken_value okCookie tokStr
  exact ⟨h.2.2, h.2.1 tokStr rfl⟩

/-- C8: evaluation at the failing input: the cookie read throws a
`URIError` when the matched `authgate_csrf` value contains malformed
percent-encoding — the claim requires it never to throw — while cookie
strings that are malformed only structurally (stray separators, missing
`=`) yield plain absence. -/
theorem claim8_cookie_read_throw_eval :
    getCSRFToken badCookie = Except.error () ∧
    getCookie csrfCookieName badCookie = Except.error () ∧
    getCSRFToken junkCookie = Except.ok none :=
  ⟨rfl, rfl, rfl⟩

/-- getCurrentUser when the wrapped authFetch throws. -/
theorem getCurrentUser_authFetch_err {cookie : List Char} {net : Nat → FetchResult}
    {opts : Option UserOpts} {e : Unit} {calls : List Call}
    (h : authFetch cookie net userUrl ⟨some getStr, [], none⟩
      (some ⟨some ((opts.bind UserOpts.audience).getD appStr)⟩) = (Except.error e, calls)) :
    getCurrentUser cookie net opts = (JsValue.null, calls) := by
  simp only [getCurrentUser]
  rw [h]

/-- getCurrentUser when the response status is not a success. -/
theorem getCurrentUser_notok {cookie : List Char} {net : Nat → FetchResult}
    {opts : Option UserOpts} {r : Response} {calls : List Call}
    (h : authFetch cookie net userUrl ⟨some getStr, [], none⟩
      (some ⟨some ((opts.bind UserOpts.audience).getD appStr)⟩) = (Except.ok r, calls))
    (hok : r.ok = false) :
    getCurrentUser cookie net opts = (JsValue.null, calls) := by
  simp only [getCurrentUser]
  rw [h]
  simp [hok]

/-- getCurrentUser when the body fails to parse. -/
theorem getCurrentUser_badbody {cookie : List Char} {net : Nat → FetchResult}
    {opts : Option UserOpts} {r : Response} {calls : List Call} {e : Unit}
    (h : authFetch cookie net userUrl ⟨some getStr, [], none⟩
      (some ⟨some ((opts.bind UserOpts.audience).getD appStr)⟩) = (Except.ok r, calls))
    (hok : r.ok = true) (hb : r.body = Except.error e) :
    getCurrentUser cookie net opts = (JsValue.null, calls) := by
  simp only [getCurrentUser]
  rw [h]
  simp [hok, hb]

/-- getCurrentUser when the body parses: the value is returned as-is. -/
theorem getCurrentUser_body {cookie : List Char} {net : Nat → FetchResult}
    {opts : Option UserOpts} {r : Response} {calls : List Call} {v : JsValue}
    (h : authFetch cookie net userUrl ⟨some getStr, [], none⟩
      (some ⟨some ((opts.bind UserOpts.audience).getD appStr)⟩) = (Except.ok r, calls))
    (hok : r.ok = true) (hb : r.body = Except.ok v) :
    getCurrentUser cookie net opts = (v, calls) := by
  simp only [getCurrentUser]
  rw [h]
  simp [hok, hb]

/-- C9: getCurrentUser never surfaces an error to the caller: it returns
null when the underlying authFetch throws, when the status is not a
success, or when the body fails to parse as JSON; a non-null value is
returned only when the call returned a success status with a parseable
body. -/
theorem claim9_getCurrentUser_absorbs (cookie : List Char) (net : Nat → FetchResult)
    (opts : Option UserOpts) :
    (∀ e calls,
      authFetch cookie net userUrl ⟨some getStr, [], none⟩
          (some ⟨some ((opts.bind UserOpts.audience).getD appStr)⟩) =
        (Except.error e, calls) →
      getCurrentUser cookie net opts = (JsValue.null, calls)) ∧
    (∀ r calls,
      authFetch cookie net userUrl ⟨some getStr, [], none⟩
          (some ⟨some ((opts.bind UserOpts.audience).getD appStr)⟩) = (Except.ok r, calls) →
      r.ok = false → getCurrentUser cookie net opts = (JsValue.null, calls)) ∧
    (∀ r calls e,
      authFetch cookie net userUrl ⟨some getStr, [], none⟩
          (some ⟨some ((opts.bind UserOpts.audience).getD appStr)⟩) = (Except.ok r, calls) →
      r.body = Except.error e → getCurrentUser cookie net opts = (JsValue.null, calls)) ∧
    (∀ v calls, getCurrentUser cookie net opts = (v, calls) → ¬v = JsValue.null →
      ∃ r w,
        authFetch cookie net userUrl ⟨some getStr, [], none⟩
            (some ⟨some ((opts.bind UserOpts.audience).getD appStr)⟩) = (Except.ok r, calls) ∧
        r.ok = true ∧ r.body = Except.ok w ∧ v = w) := by
  refine ⟨?_, ?_, ?_, ?_⟩
  · intro e calls h
    exact getCurrentUser_authFetch_err h
  · intro r calls h hok
    exact getCurrentUser_notok h hok
  · intro r calls e h hb
    cases hok : r.ok with
    | false => exact getCurrentUser_notok h hok
    | true => exact getCurrentUser_badbody h hok hb
  · intro v calls hgcu hne
    rcases haf : authFetch cookie net userUrl ⟨some getStr, [], none⟩
      (some ⟨some ((opts.bind UserOpts.audience).getD appStr)⟩) with ⟨res, calls2⟩
    cases res with
    | error e =>
      rw [getCurrentUser_authFetch_err haf] at hgcu
      injection hgcu with h1 h2
      exact absurd h1.symm hne
    | ok r =>
      cases hok : r.ok with
      | false =>
        rw [getCurrentUser_notok haf hok] at hgcu
        injection hgcu with h1 h2
        exact absurd h1.symm hne
      | true =>
        cases hb : r.body with
        | error e =>
          rw [getCurrentUser_badbody haf hok hb] at hgcu
          injection hgcu with h1 h2
          exact absurd h1.symm hne
        | ok w =>
          rw [getCurrentUser_body haf hok hb] at hgcu
          injection hgcu with h1 h2
          subst h2
          exact ⟨r, w, rfl, hok, hb, h1.symm⟩

/-- C9 witness: a rejecting network makes authFetch throw and getCurrentUser
return null after the single issued call. -/
theorem claim9_witness :
    getCurrentUser okCookie netThrows none =
      (JsValue.null, [(userUrl, withCredentials ⟨some getStr, [], none⟩)]) :=
  (claim9_getCurrentUser_absorbs okCookie netThrows none).1 ()
    [(userUrl, withCredentials ⟨some getStr, [], none⟩)] rfl

/-- C10: getCurrentUser performs no structural validation of the identity
response: whenever the call yields a success status whose body parses as
JSON, the parsed value is returned as the current user whatever its shape —
it may lack the id, email and username fields or not be an object at all —
and in particular a body consisting of the JSON literal null yields the
return value null, indistinguishable from every failure mode. -/
theorem claim10_getCurrentUser_no_validation (cookie : List Char) (net : Nat → FetchResult)
    (opts : Option UserOpts) (r : Response) (v : JsValue) (calls : List Call)
    (h : authFetch cookie net userUrl ⟨some getStr, [], none⟩
      (some ⟨some ((opts.bind UserOpts.audience).getD appStr)⟩) = (Except.ok r, calls))
    (hok : r.ok = true) (hb : r.body = Except.ok v) :
    getCurrentUser cookie net opts = (v, calls) ∧
    (v = JsValue.null → (getCurrentUser cookie net opts).1 = JsValue.null) := by
  have hmain := getCurrentUser_body h hok hb
  refine ⟨hmain, ?_⟩
  intro hv
  rw [hmain, hv]

/-- C10 witness: a 200 response whose body is the JSON literal null makes
getCurrentUser return null — the same value as every failure mode. -/
theorem claim10_witness :
    getCurrentUser okCookie netNullBody none =
      (JsValue.null, [(userUrl, withCredentials ⟨some getStr, [], none⟩)]) :=
  (claim10_getCurrentUser_no_validation okCookie netNullBody none respNull JsValue.null
    [(userUrl, withCredentials ⟨some getStr, [], none⟩)] rfl rfl rfl).1

end AuthGate
